import Mathlib

/- Formal model of the my_server package: a TCP server that accepts client
   connections in a polling loop, services each client on a worker thread,
   and tears everything down cooperatively on shutdown.  All definitions
   below are a shallow embedding of src/my_server/__init__.py; workers are
   identified by natural numbers, sockets and threads by explicit state
   fields, and the Python runtime behaviour that matters (list iteration
   with in-place removal, Event set/clear, Process close semantics) is
   modelled explicitly where the code relies on it. -/

namespace MyServer

/-- Timeout constant passed to select.select by the poll loop
(src/my_server/__init__.py line 11): zero, i.e. a non-blocking
readiness check. -/
def NONBLOCKING : Nat := 0

/-- Timeout argument of the select.select call in MyServer._server_loop
(src/my_server/__init__.py lines 68-71). -/
def serverSelectTimeout : Nat := NONBLOCKING

/-! ## The reap scan (MyServer._server_loop, lines 76-79)

The Python code is

  for handler in self._active_clients:
      if not(handler.is_alive):
          handler.cleanup()
          self._active_clients.remove(handler)

A CPython list iterator keeps a cursor index: each step yields the element
at the cursor of the CURRENT list and then advances the cursor, and
list.remove deletes the first occurrence of the element (for these distinct
handler objects, the element at the cursor), shifting later elements one
slot left.  `reapAux alive fuel i l` replays exactly that: `i` is the
cursor, the scan ends when the cursor reaches the current length, and the
fuel `l.length` is exactly the maximal number of iterator steps.  It
returns the list after the scan together with the handlers whose cleanup
was called, in call order. -/

def reapAux (alive : Nat → Bool) : Nat → Nat → List Nat → List Nat × List Nat
  | 0, _, l => (l, [])
  | fuel+1, i, l =>
    if h : i < l.length then
      if alive (l.get ⟨i, h⟩) then
        reapAux alive fuel (i+1) l
      else
        ((reapAux alive fuel (i+1) (l.erase (l.get ⟨i, h⟩))).1,
         l.get ⟨i, h⟩ :: (reapAux alive fuel (i+1) (l.erase (l.get ⟨i, h⟩))).2)
    else (l, [])

/-- One reap scan over the active-client list, with the Python
iterate-and-remove-in-place semantics of lines 76-79. -/
def reapScan (alive : Nat → Bool) (l : List Nat) : List Nat × List Nat :=
  reapAux alive l.length 0 l

/-! ## The poll loop as a whole (MyServer._server_loop, lines 65-83)

One iteration accepts the ready connections (line 72-74: each accept
appends a freshly constructed ClientHandler to the active list) and then
performs the reap scan.  A run of the loop is a fold of iterations over a
script giving, per iteration, how many connections are accepted and which
workers are still alive at the start of that reap scan.  On loop exit the
final sweep (lines 80-83) walks the handlers still in the list, in order;
it is modelled by finalSweep below, OS socket errors included. -/

structure SrvState where
  active : List Nat
  cleaned : List Nat
  nextId : Nat
deriving DecidableEq

/-- Accept step of one poll iteration (lines 72-74): each ready connection
wraps a fresh ClientHandler, appended to the active list.  Fresh handlers
are modelled by consecutive new identifiers. -/
def acceptNew (n : Nat) (s : SrvState) : SrvState :=
  { s with
    active := s.active ++ (List.range n).map (fun k => s.nextId + k),
    nextId := s.nextId + n }

/-- One iteration of the while loop in _server_loop (lines 67-79):
accept the ready connections, then run the reap scan. -/
def pollIteration (n : Nat) (alive : Nat → Bool) (s : SrvState) : SrvState :=
  { active := (reapScan alive (acceptNew n s).active).1,
    cleaned := s.cleaned ++ (reapScan alive (acceptNew n s).active).2,
    nextId := (acceptNew n s).nextId }

/-- Server state at process start: no clients yet. -/
def initSrv : SrvState := ⟨[], [], 0⟩

/-- A run of the poll loop over a script: one entry per iteration, giving
the number of accepted connections and the per-worker liveness at the
start of the reap scan of that iteration. -/
def runSrv : List (Nat × (Nat → Bool)) → SrvState → SrvState
  | [], s => s
  | step :: rest, s => runSrv rest (pollIteration step.1 step.2 s)

/-- Errors raised by the OS socket layer: ENOTCONN, raised by getpeername
and by shutdown when the TCP connection is no longer established because
the peer reset or aborted it. -/
inductive OSErr where
  | enotconn
deriving DecidableEq

/-- The final sweep of lines 80-83 with the OS socket semantics.  The
sweep walks the remaining active list in order, each worker paired with
whether its TCP connection is still established.  For a still-connected
worker, getpeername (line 82) succeeds and cleanup (line 83) clears the
flag, joins the thread — which exits at its next flag check — then shuts
down and closes the still-established socket: the worker is cleaned and
the sweep continues.  For a worker whose peer reset the connection,
getpeername raises OSError ENOTCONN already on line 82; the exception
propagates out of the for loop, the sweep aborts, and that worker and
every later one stay uncleaned, their sockets untouched.  Returns the
workers actually cleaned, in order, and the OSError the sweep raised, if
any (none: the sweep ran to completion). -/
def finalSweep : List (Nat × Bool) → List Nat × Option OSErr
  | [] => ([], none)
  | (w, connected) :: rest =>
    if connected = true then
      (w :: (finalSweep rest).1, (finalSweep rest).2)
    else ([], some OSErr.enotconn)

/-- The reap scan only reshuffles: the surviving list together with the
cleaned-up handlers is a permutation of the input list.  In particular no
handler is duplicated or invented by the scan. -/
theorem reapAux_perm (alive : Nat → Bool) :
    ∀ (fuel i : Nat) (l : List Nat),
      ((reapAux alive fuel i l).1 ++ (reapAux alive fuel i l).2).Perm l := by
  intro fuel
  induction fuel with
  | zero => intro i l; simp [reapAux]
  | succ fuel ih =>
    intro i l
    simp only [reapAux]
    by_cases h : i < l.length
    · rw [dif_pos h]
      by_cases ha : alive (l.get ⟨i, h⟩) = true
      · rw [if_pos ha]
        exact ih (i+1) l
      · rw [if_neg ha]
        have hmem : l.get ⟨i, h⟩ ∈ l := List.get_mem l i h
        exact List.perm_middle.trans
          ((List.Perm.cons _ (ih (i+1) (l.erase (l.get ⟨i, h⟩)))).trans
            (List.perm_cons_erase hmem).symm)
    · rw [dif_neg h]
      simp

theorem reapScan_perm (alive : Nat → Bool) (l : List Nat) :
    ((reapScan alive l).1 ++ (reapScan alive l).2).Perm l :=
  reapAux_perm alive l.length 0 l

/-- Claim C4 (evaluation at the failing input): a run that accepts two
clients that are both still alive at the last reap scan leaves both in
the active list when the loop exits on the cleared flag (first conjunct).
If client 0 then resets its connection before the final sweep of lines
80-83 reaches it — its worker loop exits on the caught reset, leaving the
socket unconnected — the getpeername call of line 82 raises OSError
ENOTCONN on that socket and the for loop aborts: no cleanup runs at all,
so neither the dead worker 0 nor the still live worker 1 has its socket
closed (second conjunct), contradicting the claim that cleanup is called
on every remaining worker and each socket closed exactly once before the
runner terminates.  The third conjunct isolates the cause: without the
reset worker in front of it, the sweep does clean the live worker. -/
theorem final_sweep_aborts_at_reset_worker :
    (runSrv [(2, fun _ => true)] initSrv).active = [0, 1] ∧
    finalSweep [(0, false), (1, true)] = ([], some OSErr.enotconn) ∧
    finalSweep [(1, true)] = ([1], none) := by decide

/-! ## ClientHandler as a transition system (lines 86-126)

A ClientHandler owns a connected socket, a threading.Event run-flag
(_client_enabled) and a worker thread running _client_loop.  The states
below record the run-flag, whether the thread is still executing its loop,
how far a cleanup call (lines 111-115) has progressed, and whether the
socket has been shut down or closed.  cpc is the cleanup program counter:
0 cleanup not called, 1 after _client_enabled.clear(), 2 after
_client_thread.join() returned, 3 after _soc.shutdown, 4 after _soc.close.
The join transition is enabled only once the loop has exited: join blocks
until the thread terminates, which is exactly the claimed guarantee. -/

inductive WPhase where
  | running
  | exited
deriving DecidableEq

structure WState where
  wflag : Bool
  phase : WPhase
  cpc : Nat
  shutdownDone : Bool
  socClosed : Bool
deriving DecidableEq

inductive WStep : WState → WState → Prop where
  | send (s : WState) (h1 : s.phase = .running) (h2 : s.wflag = true) :
      WStep s s
  | peerDisconnect (s : WState) (h : s.phase = .running) :
      WStep s { s with phase := .exited }
  | flagExit (s : WState) (h1 : s.phase = .running) (h2 : s.wflag = false) :
      WStep s { s with phase := .exited }
  | cleanupClear (s : WState) (h : s.cpc = 0) :
      WStep s { s with wflag := false, cpc := 1 }
  | cleanupJoin (s : WState) (h1 : s.cpc = 1) (h2 : s.phase = .exited) :
      WStep s { s with cpc := 2 }
  | cleanupShutdown (s : WState) (h : s.cpc = 2) :
      WStep s { s with cpc := 3, shutdownDone := true }
  | cleanupClose (s : WState) (h : s.cpc = 3) :
      WStep s { s with cpc := 4, socClosed := true }

/-- State right after the ClientHandler constructor: the thread has been
started (line 101) and its loop has set the run-flag (line 118). -/
def winit : WState := ⟨true, .running, 0, false, false⟩

inductive WReach : WState → Prop where
  | init : WReach winit
  | step {s t : WState} : WReach s → WStep s t → WReach t

/-- Inductive invariant of the worker system. -/
def WInv (s : WState) : Prop :=
  (2 ≤ s.cpc → s.phase = .exited) ∧
  (s.shutdownDone = true → 3 ≤ s.cpc) ∧
  (s.socClosed = true → 4 ≤ s.cpc) ∧
  (1 ≤ s.cpc → s.wflag = false)

theorem wInv_step {s t : WState} (h : WInv s) (hst : WStep s t) : WInv t := by
  obtain ⟨h1, h2, h3, h4⟩ := h
  cases hst with
  | send hp hf => exact ⟨h1, h2, h3, h4⟩
  | peerDisconnect hp =>
    exact ⟨fun _ => rfl, h2, h3, h4⟩
  | flagExit hp hf =>
    exact ⟨fun _ => rfl, h2, h3, h4⟩
  | cleanupClear hc =>
    refine ⟨?_, ?_, ?_, ?_⟩ <;> dsimp only
    · intro hx; exact absurd hx (by omega)
    · intro hx; have := h2 hx; omega
    · intro hx; have := h3 hx; omega
    · intro hx; rfl
  | cleanupJoin hc hp =>
    refine ⟨?_, ?_, ?_, ?_⟩ <;> dsimp only
    · intro hx; exact hp
    · intro hx; have := h2 hx; omega
    · intro hx; have := h3 hx; omega
    · intro hx; exact h4 (by omega)
  | cleanupShutdown hc =>
    refine ⟨?_, ?_, ?_, ?_⟩ <;> dsimp only
    · intro hx; exact h1 (by omega)
    · intro hx; omega
    · intro hx; have := h3 hx; omega
    · intro hx; exact h4 (by omega)
  | cleanupClose hc =>
    refine ⟨?_, ?_, ?_, ?_⟩ <;> dsimp only
    · intro hx; exact h1 (by omega)
    · intro hx; omega
    · intro hx; omega
    · intro hx; exact h4 (by omega)

theorem wInv_reach {s : WState} (h : WReach s) : WInv s := by
  induction h with
  | init => exact ⟨by simp [winit], by simp [winit], by simp [winit], by simp [winit]⟩
  | step hr hst ih => exact wInv_step ih hst

/-- Claim C2: in every reachable state of a ClientHandler, if the socket
has been shut down or closed then the worker loop has already exited, the
run-flag was cleared first and the join of cleanup (line 113) has
returned: cleanup never touches the socket while the loop is executing. -/
theorem worker_socket_closed_only_after_loop_exit (s : WState)
    (hr : WReach s) (h : s.shutdownDone = true ∨ s.socClosed = true) :
    s.phase = .exited ∧ s.wflag = false ∧ 2 ≤ s.cpc := by
  obtain ⟨h1, h2, h3, h4⟩ := wInv_reach hr
  have hc : 3 ≤ s.cpc := by
    rcases h with h | h
    · exact h2 h
    · have := h3 h; omega
  exact ⟨h1 (by omega), h4 (by omega), by omega⟩

/-- Witness for C2: the reachable state in which the peer disconnected,
cleanup cleared the flag, joined and shut the socket down. -/
theorem worker_socket_closed_only_after_loop_exit_witness :
    (⟨false, .exited, 3, true, false⟩ : WState).phase = .exited ∧
    (⟨false, .exited, 3, true, false⟩ : WState).wflag = false ∧
    2 ≤ (⟨false, .exited, 3, true, false⟩ : WState).cpc :=
  worker_socket_closed_only_after_loop_exit _
    (WReach.step
      (WReach.step
        (WReach.step
          (WReach.step WReach.init (WStep.peerDisconnect winit rfl))
          (WStep.cleanupClear _ rfl))
        (WStep.cleanupJoin _ rfl rfl))
      (WStep.cleanupShutdown _ rfl))
    (Or.inl rfl)

/-! ## ClientHandler.cleanup as a call (lines 111-115), for claim C9 -/

inductive CEvent where
  | clearFlag
  | joinRet
  | shutdownCall
  | closeCall
deriving DecidableEq

/-- Result of one ClientHandler.cleanup call: blocked when the join of
line 113 has not yet returned because the loop is still running; raised
when an operation raised an OSError, with the operations completed before
the raise; done with the final worker state and the completed operations
otherwise. -/
inductive CleanupRes where
  | blocked
  | raised (e : OSErr) (completed : List CEvent)
  | done (t : WState) (completed : List CEvent)
deriving DecidableEq

/-- One call of ClientHandler.cleanup, lines 111-115, with the OS socket
semantics; connected says whether the TCP connection of the worker socket
is still established.  Line 112 clears the run-flag; the join of line 113
returns at once if the loop has already exited and otherwise blocks until
it observes the cleared flag.  The shutdown(SHUT_RDWR) of line 114
succeeds only on a still-established connection: on a socket whose peer
reset or aborted the connection it raises OSError ENOTCONN, and the close
of line 115 never runs. -/
def cleanupCall (s : WState) (connected : Bool) : CleanupRes :=
  match ({ s with wflag := false, cpc := 1 } : WState).phase with
  | .running => .blocked
  | .exited =>
    if connected = true then
      .done { s with wflag := false, cpc := 4,
                     shutdownDone := true, socClosed := true }
        [.clearFlag, .joinRet, .shutdownCall, .closeCall]
    else .raised .enotconn [.clearFlag, .joinRet]

/-- Claim C9 (evaluation at the failing input): calling cleanup on a
worker whose loop has already exited does return — the join of line 113
is immediate, the result is not blocked — and nothing is double-closed.
But in this program a loop that exited on its own did so through the
caught reset/abort of lines 124-126, so the socket connection is gone:
the shutdown of line 114 then raises OSError ENOTCONN right after the
clear and the join, the close of line 115 never runs, and the call does
not complete without error as the claim states (first conjunct).  The
second conjunct shows what the claim expects, which the code delivers
only on a still-established connection: completion with exactly one
shutdown and one close. -/
theorem cleanup_after_peer_reset_raises_enotconn :
    cleanupCall ⟨true, .exited, 0, false, false⟩ false =
      CleanupRes.raised OSErr.enotconn [CEvent.clearFlag, CEvent.joinRet] ∧
    cleanupCall ⟨true, .exited, 0, false, false⟩ true =
      CleanupRes.done ⟨false, .exited, 4, true, true⟩
        [CEvent.clearFlag, CEvent.joinRet,
         CEvent.shutdownCall, CEvent.closeCall] := by decide

/-! ## MyServer.end and the server process (lines 57-83)

The outer system: the shared multiprocessing.Event _server_enabled (flag),
the server process running _server_loop (lphase: polling while inside the
while of line 67, sweeping during the final cleanup of lines 80-83, done
once _server_loop returned and the process terminated), the progress of an
end() call (epc: 0 not called, 1 after _server_enabled.clear() line 59,
2 after _server_proc.join() line 60 returned, 3 after _server_proc.close()
line 61, 4 after _soc.close() line 62), and whether the listening socket
has been closed.  Transitions are labelled by what fires them.  The
initial state is the running server: the spec treats calling end() before
the runner became alive as a precondition violation, so analysis starts
from the state in which the loop is polling with the flag set. -/

inductive LPhase where
  | polling
  | sweeping
  | done
deriving DecidableEq

inductive SLbl where
  | iterL
  | exitL
  | sweepL
  | clearL
  | joinL
  | procCloseL
  | socCloseL
deriving DecidableEq

structure SState where
  flag : Bool
  lphase : LPhase
  epc : Nat
  listenerClosed : Bool
deriving DecidableEq

inductive SStep : SState → SLbl → SState → Prop where
  | pollIter (s : SState) (h1 : s.lphase = .polling) (h2 : s.flag = true) :
      SStep s .iterL s
  | loopExit (s : SState) (h1 : s.lphase = .polling) (h2 : s.flag = false) :
      SStep s .exitL { s with lphase := .sweeping }
  | sweepDone (s : SState) (h : s.lphase = .sweeping) :
      SStep s .sweepL { s with lphase := .done }
  | endClear (s : SState) (h : s.epc = 0) :
      SStep s .clearL { s with flag := false, epc := 1 }
  | endJoin (s : SState) (h1 : s.epc = 1) (h2 : s.lphase = .done) :
      SStep s .joinL { s with epc := 2 }
  | endProcClose (s : SState) (h : s.epc = 2) :
      SStep s .procCloseL { s with epc := 3 }
  | endSocClose (s : SState) (h : s.epc = 3) :
      SStep s .socCloseL { s with epc := 4, listenerClosed := true }

/-- The running server: poll loop active, flag set, end() not yet called,
listening socket open. -/
def sinit : SState := ⟨true, .polling, 0, false⟩

inductive SReach : SState → Prop where
  | init : SReach sinit
  | step {s : SState} {l : SLbl} {t : SState} :
      SReach s → SStep s l t → SReach t

/-- Inductive invariant of the server system. -/
def SInv (s : SState) : Prop :=
  (2 ≤ s.epc → s.lphase = .done) ∧
  (s.listenerClosed = true → s.epc = 4) ∧
  (1 ≤ s.epc → s.flag = false)

theorem sInv_step {s : SState} {l : SLbl} {t : SState}
    (h : SInv s) (hst : SStep s l t) : SInv t := by
  obtain ⟨h1, h2, h3⟩ := h
  cases hst with
  | pollIter hp hf => exact ⟨h1, h2, h3⟩
  | loopExit hp hf =>
    refine ⟨?_, ?_, ?_⟩ <;> dsimp only
    · intro hx
      have := h1 hx
      rw [hp] at this
      exact absurd this (by simp)
    · exact h2
    · exact h3
  | sweepDone hp =>
    exact ⟨fun _ => rfl, h2, h3⟩
  | endClear hc =>
    refine ⟨?_, ?_, ?_⟩ <;> dsimp only
    · intro hx; omega
    · intro hx; have := h2 hx; omega
    · intro hx; rfl
  | endJoin hc hp =>
    refine ⟨?_, ?_, ?_⟩ <;> dsimp only
    · intro hx; exact hp
    · intro hx; have := h2 hx; omega
    · intro hx; exact h3 (by omega)
  | endProcClose hc =>
    refine ⟨?_, ?_, ?_⟩ <;> dsimp only
    · intro hx; exact h1 (by omega)
    · intro hx; have := h2 hx; omega
    · intro hx; exact h3 (by omega)
  | endSocClose hc =>
    refine ⟨?_, ?_, ?_⟩ <;> dsimp only
    · intro hx; exact h1 (by omega)
    · intro hx; rfl
    · intro hx; exact h3 (by omega)

theorem sInv_reach {s : SState} (h : SReach s) : SInv s := by
  induction h with
  | init =>
    exact ⟨by simp [sinit], by simp [sinit], by simp [sinit]⟩
  | step hr hst ih => exact sInv_step ih hst

/-- Claim C3: in every reachable state of the running server, if the
listening socket has been closed then the whole end() sequence of lines
58-62 has run: the flag is cleared, the server process has fully
terminated (join returned, so the loop and its final sweep are done) and
the process resources were released — the listening socket is closed only
as the last step of end(), after the runner terminated, never by the
runner loop itself (no loop transition touches it). -/
theorem listening_socket_closed_only_after_runner_done (s : SState)
    (hr : SReach s) (h : s.listenerClosed = true) :
    s.lphase = .done ∧ s.flag = false ∧ s.epc = 4 := by
  obtain ⟨h1, h2, h3⟩ := sInv_reach hr
  have he : s.epc = 4 := h2 h
  exact ⟨h1 (by omega), h3 (by omega), he⟩

/-- Witness for C3: the state reached by running end() to completion
against the polling loop. -/
theorem listening_socket_closed_only_after_runner_done_witness :
    (⟨false, .done, 4, true⟩ : SState).lphase = .done ∧
    (⟨false, .done, 4, true⟩ : SState).flag = false ∧
    (⟨false, .done, 4, true⟩ : SState).epc = 4 :=
  listening_socket_closed_only_after_runner_done _
    (SReach.step
      (SReach.step
        (SReach.step
          (SReach.step
            (SReach.step
              (SReach.step SReach.init (SStep.endClear sinit rfl))
              (SStep.loopExit _ rfl rfl))
            (SStep.sweepDone _ rfl))
          (SStep.endJoin _ rfl rfl))
        (SStep.endProcClose _ rfl))
      (SStep.endSocClose _ rfl))
    rfl

/-- Claim C7: the run-flag is one-shot and the poll is non-blocking.
First conjunct: no transition of the system ever sets the flag once it is
false — in particular nothing sets it again after the clear of end().
Second conjunct: with the flag cleared, the poll-iteration transition is
disabled, so the loop cannot run another iteration body.  Third conjunct:
with the flag cleared a polling loop immediately takes the exit transition
to terminal cleanup — the loop leaves within one iteration of the clear.
Last conjuncts: the readiness check of lines 68-71 passes the timeout
NONBLOCKING = 0 to select, a zero-timeout non-blocking poll. -/
theorem run_flag_one_shot_and_poll_nonblocking :
    (∀ (s : SState) (l : SLbl) (t : SState),
       SStep s l t → s.flag = false → t.flag = false) ∧
    (∀ (s t : SState), s.flag = false → ¬ SStep s .iterL t) ∧
    (∀ s : SState, s.lphase = .polling → s.flag = false →
       SStep s .exitL { s with lphase := .sweeping }) ∧
    serverSelectTimeout = 0 ∧ NONBLOCKING = 0 := by
  refine ⟨?_, ?_, ?_, rfl, rfl⟩
  · intro s l t hst hf
    cases hst with
    | pollIter hp hflag => exact hf
    | loopExit hp hflag => exact hf
    | sweepDone hp => exact hf
    | endClear hc => rfl
    | endJoin hc hp => exact hf
    | endProcClose hc => exact hf
    | endSocClose hc => exact hf
  · intro s t hf hst
    cases hst with
    | pollIter hp hflag => rw [hf] at hflag; exact absurd hflag (by simp)
  · intro s hp hf
    exact SStep.loopExit s hp hf

/-- Witness for C7: the exit transition fires for a polling state with a
cleared flag, and the target of any step from a cleared-flag state still
has the flag cleared. -/
theorem run_flag_one_shot_and_poll_nonblocking_witness :
    (⟨false, .sweeping, 1, false⟩ : SState).flag = false ∧
    SStep (⟨false, .polling, 1, false⟩ : SState) .exitL
      (⟨false, .sweeping, 1, false⟩ : SState) := by
  refine ⟨?_, ?_⟩
  · exact run_flag_one_shot_and_poll_nonblocking.1
      ⟨false, .polling, 1, false⟩ .exitL _
      (SStep.loopExit ⟨false, .polling, 1, false⟩ rfl rfl) rfl
  · exact run_flag_one_shot_and_poll_nonblocking.2.2.1
      ⟨false, .polling, 1, false⟩ rfl rfl

/-! ## ClientHandler._client_loop (lines 117-126)

The loop body is

  while status.is_set():
      try:
          self._soc.send(bytes("Hello World", "utf-8"))
          time.sleep(1)
      except (ConnectionResetError, ConnectionAbortedError):
          self._log.info("Client disconnected...")
          return

Iterations are indexed; flags i is the value the run-flag check reads at
iteration i, outs i the outcome of the send of iteration i.  The model
returns how the loop ended and the trace of socket writes and pauses.
A send that raises ConnectionResetError or ConnectionAbortedError makes
the loop log and return normally (peerDisconnect) with no write recorded;
any other exception escapes the try and propagates out of the loop
(raised).  The fuel only truncates infinite runs; stillRunning marks a
truncated run. -/

inductive SendOutcome where
  | sentOk
  | connReset
  | connAborted
  | otherErr
deriving DecidableEq

inductive CLEvent where
  | send (payload : List Nat)
  | sleep (secs : Nat)
  | logInfo
deriving DecidableEq

inductive CLExit where
  | flagCleared
  | peerDisconnect
  | raised
  | stillRunning
deriving DecidableEq

/-- Bytes of the payload written on every iteration (line 122):
the utf-8 encoding of the ASCII string Hello World, which is its list of
character codes. -/
def helloPayload : List Nat := "Hello World".data.map Char.toNat

def clientLoop (flags : Nat → Bool) (outs : Nat → SendOutcome) :
    Nat → Nat → CLExit × List CLEvent
  | 0, _ => (.stillRunning, [])
  | fuel+1, i =>
    if flags i = true then
      match outs i with
      | .sentOk =>
          ((clientLoop flags outs fuel (i+1)).1,
           CLEvent.send helloPayload :: CLEvent.sleep 1 ::
             (clientLoop flags outs fuel (i+1)).2)
      | .connReset => (.peerDisconnect, [.logInfo])
      | .connAborted => (.peerDisconnect, [.logInfo])
      | .otherErr => (.raised, [])
    else (.flagCleared, [])

/-- Claim C5: a send at a flag-checked iteration that raises
ConnectionResetError or ConnectionAbortedError makes the loop log and
return silently that very iteration, with no error surfaced (first
conjunct), while a send raising any other exception makes the loop end by
propagating that exception (second conjunct).  Globally, the loop
propagates an error only when some send actually raised something other
than a reset/abort, and it ends in the silent peer-disconnect return only
when some send actually raised a reset/abort (third and fourth
conjuncts) — a reset/abort never surfaces as an error and another
exception is never swallowed into a silent exit. -/
theorem client_loop_peer_disconnect_silent_other_errors_propagate :
    ∀ (flags : Nat → Bool) (outs : Nat → SendOutcome) (fuel i : Nat),
      (flags i = true → outs i = .connReset ∨ outs i = .connAborted →
        clientLoop flags outs (fuel+1) i = (.peerDisconnect, [.logInfo])) ∧
      (flags i = true → outs i = .otherErr →
        clientLoop flags outs (fuel+1) i = (.raised, [])) ∧
      ((clientLoop flags outs fuel i).1 = .raised →
        ∃ j, outs j = .otherErr) ∧
      ((clientLoop flags outs fuel i).1 = .peerDisconnect →
        ∃ j, outs j = .connReset ∨ outs j = .connAborted) := by
  intro flags outs
  have main : ∀ (fuel i : Nat),
      ((clientLoop flags outs fuel i).1 = .raised →
        ∃ j, outs j = .otherErr) ∧
      ((clientLoop flags outs fuel i).1 = .peerDisconnect →
        ∃ j, outs j = .connReset ∨ outs j = .connAborted) := by
    intro fuel
    induction fuel with
    | zero =>
      intro i
      refine ⟨?_, ?_⟩ <;> intro hx <;> simp [clientLoop] at hx
    | succ fuel ih =>
      intro i
      by_cases hf : flags i = true
      · cases ho : outs i with
        | sentOk =>
          refine ⟨?_, ?_⟩ <;> intro hx <;>
            simp only [clientLoop, hf, if_pos, ho] at hx
          · exact (ih (i+1)).1 hx
          · exact (ih (i+1)).2 hx
        | connReset =>
          refine ⟨?_, ?_⟩ <;> intro hx <;>
            simp only [clientLoop, hf, if_pos, ho] at hx
          · cases hx
          · exact ⟨i, Or.inl ho⟩
        | connAborted =>
          refine ⟨?_, ?_⟩ <;> intro hx <;>
            simp only [clientLoop, hf, if_pos, ho] at hx
          · cases hx
          · exact ⟨i, Or.inr ho⟩
        | otherErr =>
          refine ⟨?_, ?_⟩ <;> intro hx <;>
            simp only [clientLoop, hf, if_pos, ho] at hx
          · exact ⟨i, ho⟩
          · cases hx
      · refine ⟨?_, ?_⟩ <;> intro hx <;>
          simp [clientLoop, hf] at hx
  intro fuel i
  refine ⟨?_, ?_, (main fuel i).1, (main fuel i).2⟩
  · intro hf ho
    rcases ho with ho | ho <;> simp [clientLoop, hf, ho]
  · intro hf ho
    simp [clientLoop, hf, ho]

/-- Witness for C5: a first send raising a reset makes the loop end
silently with only the disconnect log; a first send raising an unexpected
error makes the loop end by propagation with an empty trace; and the
global directions instantiated on those runs. -/
theorem client_loop_peer_disconnect_silent_other_errors_propagate_witness :
    clientLoop (fun _ => true) (fun _ => SendOutcome.connReset) 1 0 =
      (CLExit.peerDisconnect, [CLEvent.logInfo]) ∧
    clientLoop (fun _ => true) (fun _ => SendOutcome.otherErr) 1 0 =
      (CLExit.raised, []) ∧
    (∃ _j : Nat, SendOutcome.otherErr = SendOutcome.otherErr) ∧
    (∃ _j : Nat, SendOutcome.connReset = SendOutcome.connReset ∨
          SendOutcome.connReset = SendOutcome.connAborted) := by
  refine ⟨?_, ?_, ?_, ?_⟩
  · exact (client_loop_peer_disconnect_silent_other_errors_propagate
      (fun _ => true) (fun _ => .connReset) 0 0).1 rfl (Or.inl rfl)
  · exact (client_loop_peer_disconnect_silent_other_errors_propagate
      (fun _ => true) (fun _ => .otherErr) 0 0).2.1 rfl rfl
  · exact (client_loop_peer_disconnect_silent_other_errors_propagate
      (fun _ => true) (fun _ => .otherErr) 1 0).2.2.1 (by decide)
  · exact (client_loop_peer_disconnect_silent_other_errors_propagate
      (fun _ => true) (fun _ => .connReset) 1 0).2.2.2 (by decide)

/-- Claim C8: while the flag stays set and every send succeeds, every
iteration of the worker loop writes exactly the 11 ASCII bytes of
Hello World (no trailing newline: byte 10 does not occur) and then sleeps
one second, and nothing else. -/
theorem client_loop_sends_hello_world_each_second :
    ∀ (flags : Nat → Bool) (outs : Nat → SendOutcome) (fuel i : Nat),
      (∀ j, flags j = true) → (∀ j, outs j = .sentOk) →
      (clientLoop flags outs fuel i).2 =
        (List.replicate fuel [CLEvent.send helloPayload, CLEvent.sleep 1]).flatten ∧
      helloPayload = [72, 101, 108, 108, 111, 32, 87, 111, 114, 108, 100] ∧
      helloPayload.length = 11 ∧ 10 ∉ helloPayload := by
  intro flags outs fuel
  induction fuel with
  | zero =>
    intro i hf ho
    refine ⟨by simp [clientLoop], by decide, by decide, by decide⟩
  | succ fuel ih =>
    intro i hf ho
    refine ⟨?_, by decide, by decide, by decide⟩
    have htr := (ih (i+1) hf ho).1
    simp only [clientLoop, hf i, if_pos, ho i, htr, List.replicate_succ,
      List.flatten_cons]
    rfl

/-- Witness for C8: two healthy iterations write Hello World, sleep one
second, write Hello World, sleep one second. -/
theorem client_loop_sends_hello_world_each_second_witness :
    (clientLoop (fun _ => true) (fun _ => .sentOk) 2 0).2 =
      (List.replicate 2 [CLEvent.send helloPayload, CLEvent.sleep 1]).flatten ∧
    helloPayload = [72, 101, 108, 108, 111, 32, 87, 111, 114, 108, 100] ∧
    helloPayload.length = 11 ∧ 10 ∉ helloPayload :=
  client_loop_sends_hello_world_each_second
    (fun _ => true) (fun _ => .sentOk) 2 0 (fun _ => rfl) (fun _ => rfl)

/-! ## MyServer.setup (lines 50-55) and is_alive after end (lines 38-40, 57-63) -/

/-- Observable state of the MyServer control object seen by setup:
whether the shared _server_enabled event is set (it is set by the running
server loop at line 66, so it being set means the server is running). -/
structure HandleState where
  enabled : Bool
deriving DecidableEq

inductive SetupAct where
  | bindAct
  | listenAct
  | startProcAct
deriving DecidableEq

/-- Message of the assert at line 51. -/
def setupFailMsg : String := "Failed setup. Server is currently running."

/-- MyServer.setup, lines 50-55: the assert on the first line fires when
the server-enabled event is set, before the bind of line 53 is attempted;
otherwise setup binds, listens and starts the server process, in that
order. -/
def setupRun (s : HandleState) : Except String (List SetupAct) :=
  if s.enabled = true then Except.error setupFailMsg
  else Except.ok [.bindAct, .listenAct, .startProcAct]

/-- Claim C6: a setup call while the server is already running (the
enabled event is set, with no intervening end) fails the assertion
immediately, producing the assertion error and in particular attempting
no bind (bind, listen and process start are only ever performed when the
precondition held). -/
theorem setup_when_running_fails_before_bind (s : HandleState)
    (h : s.enabled = true) :
    setupRun s = Except.error setupFailMsg ∧
    ∀ acts, setupRun s ≠ Except.ok acts := by
  refine ⟨by simp [setupRun, h], ?_⟩
  intro acts hx
  simp [setupRun, h] at hx

/-- Witness for C6 at the running state. -/
theorem setup_when_running_fails_before_bind_witness :
    setupRun ⟨true⟩ = Except.error setupFailMsg ∧
    ∀ acts, setupRun ⟨true⟩ ≠ Except.ok acts :=
  setup_when_running_fails_before_bind ⟨true⟩ rfl

/-- Errors the is_alive observer can raise. -/
inductive PyErr where
  | valueError
deriving DecidableEq

/-- Handle on the multiprocessing.Process.  Once close() has been called
on it, every further query raises ValueError (the documented
multiprocessing behaviour of a closed process object). -/
structure ProcHandle where
  alive : Bool
  handleClosed : Bool
deriving DecidableEq

/-- Process.is_alive through the handle: raises ValueError on a closed
handle, otherwise reports liveness. -/
def procIsAlive (p : ProcHandle) : Except PyErr Bool :=
  if p.handleClosed = true then Except.error PyErr.valueError
  else Except.ok p.alive

structure MSrv where
  proc : ProcHandle
  enabled : Bool
  socClosed : Bool
deriving DecidableEq

/-- MyServer.end, lines 57-63, as a state transformer: clear the enabled
event, join the server process (after which it is no longer alive), close
the process handle, close the listening socket. -/
def msrvEnd (_s : MSrv) : MSrv :=
  { proc := { alive := false, handleClosed := true },
    enabled := false, socClosed := true }

/-- MyServer.is_alive, lines 38-40: delegates to the process handle. -/
def msrvIsAlive (s : MSrv) : Except PyErr Bool := procIsAlive s.proc

/-- Claim C10: after end() has returned, is_alive no longer returns a
boolean at all — because end() closed the process handle, the query
raises ValueError (first conjunct); on a not-yet-closed handle, between
setup and end, is_alive does return the liveness boolean (second
conjunct). -/
theorem is_alive_after_end_raises_value_error :
    (∀ s : MSrv, msrvIsAlive (msrvEnd s) = Except.error PyErr.valueError) ∧
    (∀ p : ProcHandle, p.handleClosed = false →
       procIsAlive p = Except.ok p.alive) := by
  refine ⟨?_, ?_⟩
  · intro s; rfl
  · intro p hp; simp [procIsAlive, hp]

/-- Witness for C10: is_alive raises after end() on a concrete running
server, and reports liveness on the still-open handle. -/
theorem is_alive_after_end_raises_value_error_witness :
    msrvIsAlive (msrvEnd ⟨⟨true, false⟩, true, false⟩) =
      Except.error PyErr.valueError ∧
    procIsAlive ⟨true, false⟩ = Except.ok true :=
  ⟨is_alive_after_end_raises_value_error.1 ⟨⟨true, false⟩, true, false⟩,
   is_alive_after_end_raises_value_error.2 ⟨true, false⟩ rfl⟩

end MyServer
